import Mathlib

/-!
# Verification of the rinha_backend_2024 ledger service

A shallow embedding of `src/api/src/main.rs`: a fixed registry of five
accounts (`ApiState.new`), a transaction handler (`client_transaction`)
and a statement handler (`client_balance`).  Machine integers (`i64`)
are modelled as `Int`; the program never overflows in the scenarios
stated here, and the Rust arithmetic used (comparison, `+`, `-` within
range) agrees with `Int`.  Timestamps (`DateTime<Utc>` obtained from
`Utc::now()`) are modelled as an explicit `now : Nat` parameter.
Statements that panic in Rust (`.unwrap()` on a failed parse) are
modelled by the handler returning `none`.
-/

/-- A stored transaction (`struct Transaction` in `main.rs`);
`realizada_em` is the timestamp assigned at application time. -/
structure Transaction where
  valor : Int
  tipo : String
  descricao : String
  realizada_em : Nat
deriving DecidableEq, Repr

/-- An account (`struct Client` in `main.rs`). -/
structure Client where
  id : Int
  limite : Int
  saldo : Int
  transacoes : List Transaction
deriving DecidableEq, Repr

/-- `Client::new` from `main.rs`. -/
def Client.new (id limite saldo : Int) : Client :=
  { id := id, limite := limite, saldo := saldo, transacoes := [] }

/-- The shared state (`struct ApiState` in `main.rs`). -/
structure ApiState where
  client_list : List Client
deriving DecidableEq, Repr

/-- `ApiState::new` from `main.rs`: the fixed five-account registry. -/
def ApiState.new : ApiState :=
  { client_list := [
      Client.new 1 100000 0,
      Client.new 2 80000 0,
      Client.new 3 1000000 0,
      Client.new 4 10000000 0,
      Client.new 5 500000 0] }

/-- The request body (`struct TransactionRequest` in `main.rs`). -/
structure TransactionRequest where
  valor : Int
  tipo : String
  descricao : String
deriving DecidableEq, Repr

/-- The success payload of the transaction endpoint
(`struct TransactionOkResp` in `main.rs`). -/
structure TransactionOkResp where
  limite : Int
  saldo : Int
deriving DecidableEq, Repr

/-- The error payload (`struct Error` in `main.rs`). -/
structure Error where
  erro : String
deriving DecidableEq, Repr

/-- The HTTP status codes the two handlers produce. -/
inductive StatusCode where
  | OK
  | UNPROCESSABLE_ENTITY
  | NOT_FOUND
deriving DecidableEq, Repr

/-- The `Result<Json<TransactionOkResp>, Json<Error>>` a transaction
handler call returns. -/
inductive TxResponse where
  | ok (resp : TransactionOkResp)
  | err (e : Error)
deriving DecidableEq, Repr

/-- The `saldo` object of the statement endpoint
(`struct ClientBalanceSaldo` in `main.rs`). -/
structure ClientBalanceSaldo where
  total : Int
  data_extrato : Nat
  limite : Int
deriving DecidableEq, Repr

/-- The success payload of the statement endpoint
(`struct ClientBalanceResponse` in `main.rs`). -/
structure ClientBalanceResponse where
  saldo : ClientBalanceSaldo
  ultimas_transacoes : List Transaction
deriving DecidableEq, Repr

/-- The `Result<Json<ClientBalanceResponse>, Json<Error>>` a statement
handler call returns. -/
inductive BalResponse where
  | ok (r : ClientBalanceResponse)
  | err (e : Error)
deriving DecidableEq, Repr

/-- Value of a list of decimal digit characters, `none` if any
character is not an ASCII digit. -/
def digitsVal (cs : List Char) : Option Nat :=
  cs.foldl
    (fun acc c =>
      match acc with
      | none => none
      | some n => if c.isDigit then some (n * 10 + (c.toNat - 48)) else none)
    (some 0)

/-- `client_id.parse::<i64>()` from Rust: optional sign, at least one
ASCII digit, value within the signed 64-bit range. -/
def parseI64 (s : String) : Option Int :=
  match s.data with
  | [] => none
  | c :: rest =>
    let signed : Bool × List Char :=
      if c = '-' then (true, rest)
      else if c = '+' then (false, rest) else (false, s.data)
    match signed with
    | (neg, digits) =>
      if digits.isEmpty then none
      else
        match digitsVal digits with
        | none => none
        | some n =>
          let v : Int := if neg then -(n : Int) else (n : Int)
          if -(2 ^ 63) ≤ v ∧ v ≤ 2 ^ 63 - 1 then some v else none

/-- Replace the first element satisfying `p` by its image under `f`
(what the Rust `iter_mut().find(..)` followed by in-place mutation
does to the list). -/
def updateFirst (p : Client → Bool) (f : Client → Client) : List Client → List Client
  | [] => []
  | c :: cs => if p c then f c :: cs else c :: updateFirst p f cs

/-- Error message of the invalid-kind validation rejection. -/
def msgInvalidTipo : String := "Tipo inválido. Precisa ser \"c\" ou \"d\""

/-- Error message of the non-positive-amount validation rejection. -/
def msgInvalidValor : String := "Valor deve ser positivo e maior do que zero"

/-- Error message of the description-length validation rejection. -/
def msgInvalidDescricao : String := "Descrição precisa estar entre 1 e 10 caracteres."

/-- Error message of the credit-limit rejection. -/
def msgLimite : String := "erro"

/-- Error message of the unknown-account rejection. -/
def msgIdInvalido : String := "Id inválido"

/-- `client_transaction` from `main.rs`, generalised over the value the
fallback arm of the `match operation.as_str()` expression computes
(the source's arm `_ => current_balance` is `fun cur _ => cur`).
Returns `none` where the Rust code panics (`parse().unwrap()` on an
unparseable id, `find(..).unwrap()` finding nothing). -/
def clientTransactionFB (fb : Int → Int → Int) (st : ApiState) (client_id : String)
    (payload : TransactionRequest) (now : Nat) :
    Option (StatusCode × TxResponse × ApiState) :=
  match parseI64 client_id with
  | none => none
  | some target_id =>
    if (st.client_list.map Client.id).contains target_id then
      match st.client_list.find? (fun c => c.id == target_id) with
      | none => none
      | some target_client =>
        if payload.tipo ≠ "c" ∧ payload.tipo ≠ "d" then
          some (.UNPROCESSABLE_ENTITY, .err ⟨msgInvalidTipo⟩, st)
        else if payload.valor ≤ 0 then
          some (.UNPROCESSABLE_ENTITY, .err ⟨msgInvalidValor⟩, st)
        else if ¬ (payload.descricao.length > 0 ∧ payload.descricao.length ≤ 10) then
          some (.UNPROCESSABLE_ENTITY, .err ⟨msgInvalidDescricao⟩, st)
        else
          let current_balance := target_client.saldo
          let limit := target_client.limite
          let future_value :=
            if payload.tipo = "c" then current_balance + payload.valor
            else if payload.tipo = "d" then current_balance - payload.valor
            else fb current_balance payload.valor
          if future_value < 0 - limit then
            some (.UNPROCESSABLE_ENTITY, .err ⟨msgLimite⟩, st)
          else
            let tx : Transaction :=
              { valor := payload.valor, tipo := payload.tipo,
                descricao := payload.descricao, realizada_em := now }
            let st' : ApiState :=
              ⟨updateFirst (fun c => c.id == target_id)
                (fun c => { c with transacoes := c.transacoes ++ [tx],
                                   saldo := future_value }) st.client_list⟩
            some (.OK, .ok ⟨limit, future_value⟩, st')
    else
      some (.NOT_FOUND, .err ⟨msgIdInvalido⟩, st)

/-- `client_transaction` from `main.rs` (fallback arm as in the source:
an unrecognized kind would leave the balance unchanged). -/
def clientTransaction (st : ApiState) (client_id : String)
    (payload : TransactionRequest) (now : Nat) :
    Option (StatusCode × TxResponse × ApiState) :=
  clientTransactionFB (fun current_balance _ => current_balance) st client_id payload now

/-- `client_balance` from `main.rs`.  The handler takes the state and
hands it back unchanged (it holds the lock with `&mut` access but never
writes). -/
def clientBalance (st : ApiState) (client_id : String) (now : Nat) :
    Option (StatusCode × BalResponse × ApiState) :=
  match parseI64 client_id with
  | none => none
  | some target_id =>
    if (st.client_list.map Client.id).contains target_id then
      match st.client_list.find? (fun c => c.id == target_id) with
      | none => none
      | some target_client =>
        some (.OK,
          .ok { saldo := { total := target_client.saldo, data_extrato := now,
                           limite := target_client.limite },
                ultimas_transacoes := target_client.transacoes.reverse.take 10 },
          st)
    else
      some (.NOT_FOUND, .err ⟨msgIdInvalido⟩, st)

/-- The candidate balance of `client_transaction` (`future_value` in
`main.rs`), generalised over the fallback arm `fb`. -/
def futureValue (fb : Int → Int → Int) (tipo : String) (cur v : Int) : Int :=
  if tipo = "c" then cur + v else if tipo = "d" then cur - v else fb cur v

/-- State after the mutation step of a successful `client_transaction`:
push the new transaction and set the new balance on the first client
with the target id. -/
def applySuccess (st : ApiState) (target_id : Int) (payload : TransactionRequest)
    (now : Nat) (fv : Int) : ApiState :=
  ⟨updateFirst (fun c => c.id == target_id)
    (fun c => { c with
        transacoes := c.transacoes ++
          [{ valor := payload.valor, tipo := payload.tipo,
             descricao := payload.descricao, realizada_em := now }],
        saldo := fv }) st.client_list⟩

/-- The credit-limit invariant of one account:
`balance >= -creditLimit`. -/
def Client.invariantB (c : Client) : Bool := decide (-c.limite ≤ c.saldo)

/-- The credit-limit invariant over the whole registry. -/
def ApiState.invariantB (st : ApiState) : Bool :=
  st.client_list.all Client.invariantB

/-- Modelled from the spec's validation rules (§4.2): kind is exactly
one of the two codes, amount strictly positive, description 1–10
characters by code-point count. -/
def specValidRequest (p : TransactionRequest) : Prop :=
  (p.tipo = "c" ∨ p.tipo = "d") ∧ 0 < p.valor ∧
  1 ≤ p.descricao.length ∧ p.descricao.length ≤ 10

instance (p : TransactionRequest) : Decidable (specValidRequest p) := by
  unfold specValidRequest
  infer_instance

theorem updateFirst_all (p : Client → Bool) (f : Client → Client) (q : Client → Bool)
    (l : List Client) (c₀ : Client) (hall : l.all q = true)
    (hfind : l.find? p = some c₀) (hq : q (f c₀) = true) :
    (updateFirst p f l).all q = true := by
  induction l with
  | nil => simp [List.find?] at hfind
  | cons a as ih =>
    simp only [List.all_cons, Bool.and_eq_true] at hall
    by_cases hpa : p a = true
    · rw [List.find?_cons_of_pos _ hpa] at hfind
      injection hfind with h
      subst h
      simp [updateFirst, hpa, hq, hall.2]
    · rw [List.find?_cons_of_neg _ hpa] at hfind
      simp [updateFirst, hpa, hall.1, ih hall.2 hfind]

theorem find?_updateFirst (p : Client → Bool) (f : Client → Client)
    (l : List Client) (c₀ : Client) (hfind : l.find? p = some c₀)
    (hpf : p (f c₀) = true) :
    (updateFirst p f l).find? p = some (f c₀) := by
  induction l with
  | nil => simp [List.find?] at hfind
  | cons a as ih =>
    by_cases hpa : p a = true
    · rw [List.find?_cons_of_pos _ hpa] at hfind
      injection hfind with h
      subst h
      simp [updateFirst, hpa, List.find?_cons_of_pos _ hpf]
    · rw [List.find?_cons_of_neg _ hpa] at hfind
      have h2 := ih hfind
      simp only [updateFirst, if_neg hpa]
      rw [List.find?_cons_of_neg _ hpa]
      exact h2

theorem map_id_updateFirst (p : Client → Bool) (f : Client → Client)
    (hf : ∀ c, (f c).id = c.id) (l : List Client) :
    (updateFirst p f l).map Client.id = l.map Client.id := by
  induction l with
  | nil => rfl
  | cons a as ih =>
    by_cases hpa : p a = true
    · simp [updateFirst, hpa, hf]
    · simp [updateFirst, hpa, ih]

theorem find?_mem_of_contains (l : List Client) (tid : Int)
    (h : (l.map Client.id).contains tid = true) :
    ∃ c, l.find? (fun c => c.id == tid) = some c := by
  have hmem : tid ∈ l.map Client.id := by simpa using h
  obtain ⟨c, hc, hid⟩ := List.mem_map.mp hmem
  have hsome : (l.find? (fun c => c.id == tid)).isSome := by
    rw [List.find?_isSome]
    exact ⟨c, hc, by simp [hid]⟩
  exact Option.isSome_iff_exists.mp hsome

/-- Exhaustive case analysis of `clientTransactionFB`: exactly one of the
six outcomes (panic on unparseable id, not-found, three validation
rejections, limit rejection, success) occurs, each under the guard
conditions read off the source. -/
theorem clientTransactionFB_spec (fb : Int → Int → Int) (st : ApiState) (cid : String)
    (p : TransactionRequest) (now : Nat) :
    (parseI64 cid = none ∧ clientTransactionFB fb st cid p now = none) ∨
    ∃ tid, parseI64 cid = some tid ∧
      (((st.client_list.map Client.id).contains tid = false ∧
          clientTransactionFB fb st cid p now =
            some (.NOT_FOUND, .err ⟨msgIdInvalido⟩, st)) ∨
       ((st.client_list.map Client.id).contains tid = true ∧
        ∃ c₀, st.client_list.find? (fun c => c.id == tid) = some c₀ ∧
          ((¬p.tipo = "c" ∧ ¬p.tipo = "d" ∧
             clientTransactionFB fb st cid p now =
               some (.UNPROCESSABLE_ENTITY, .err ⟨msgInvalidTipo⟩, st)) ∨
           ((p.tipo = "c" ∨ p.tipo = "d") ∧ p.valor ≤ 0 ∧
             clientTransactionFB fb st cid p now =
               some (.UNPROCESSABLE_ENTITY, .err ⟨msgInvalidValor⟩, st)) ∨
           ((p.tipo = "c" ∨ p.tipo = "d") ∧ 0 < p.valor ∧
            ¬(0 < p.descricao.length ∧ p.descricao.length ≤ 10) ∧
             clientTransactionFB fb st cid p now =
               some (.UNPROCESSABLE_ENTITY, .err ⟨msgInvalidDescricao⟩, st)) ∨
           ((p.tipo = "c" ∨ p.tipo = "d") ∧ 0 < p.valor ∧
            0 < p.descricao.length ∧ p.descricao.length ≤ 10 ∧
            futureValue fb p.tipo c₀.saldo p.valor < 0 - c₀.limite ∧
             clientTransactionFB fb st cid p now =
               some (.UNPROCESSABLE_ENTITY, .err ⟨msgLimite⟩, st)) ∨
           ((p.tipo = "c" ∨ p.tipo = "d") ∧ 0 < p.valor ∧
            0 < p.descricao.length ∧ p.descricao.length ≤ 10 ∧
            0 - c₀.limite ≤ futureValue fb p.tipo c₀.saldo p.valor ∧
             clientTransactionFB fb st cid p now =
               some (.OK, .ok ⟨c₀.limite, futureValue fb p.tipo c₀.saldo p.valor⟩,
                 applySuccess st tid p now
                   (futureValue fb p.tipo c₀.saldo p.valor)))))) := by
  cases hp : parseI64 cid with
  | none =>
    left
    exact ⟨rfl, by unfold clientTransactionFB; rw [hp]⟩
  | some tid =>
    right
    refine ⟨tid, rfl, ?_⟩
    cases hc : (st.client_list.map Client.id).contains tid with
    | false =>
      left
      refine ⟨rfl, ?_⟩
      have hc' : ¬((st.client_list.map Client.id).contains tid = true) := by
        rw [hc]; exact Bool.false_ne_true
      unfold clientTransactionFB
      rw [hp]
      dsimp only
      rw [if_neg hc']
    | true =>
      right
      obtain ⟨c₀, hf⟩ := find?_mem_of_contains _ _ hc
      refine ⟨rfl, c₀, hf, ?_⟩
      by_cases h1 : ¬p.tipo = "c" ∧ ¬p.tipo = "d"
      · refine Or.inl ⟨h1.1, h1.2, ?_⟩
        unfold clientTransactionFB
        rw [hp]
        dsimp only
        rw [if_pos hc, hf]
        dsimp only
        rw [if_pos h1]
      · have htipo : p.tipo = "c" ∨ p.tipo = "d" := by
          rcases not_and_or.mp h1 with h | h
          · exact Or.inl (not_not.mp h)
          · exact Or.inr (not_not.mp h)
        by_cases h2 : p.valor ≤ 0
        · refine Or.inr (Or.inl ⟨htipo, h2, ?_⟩)
          unfold clientTransactionFB
          rw [hp]
          dsimp only
          rw [if_pos hc, hf]
          dsimp only
          rw [if_neg h1, if_pos h2]
        · have h2' : 0 < p.valor := not_le.mp h2
          by_cases h3 : 0 < p.descricao.length ∧ p.descricao.length ≤ 10
          · by_cases h4 :
              futureValue fb p.tipo c₀.saldo p.valor < 0 - c₀.limite
            · refine Or.inr (Or.inr (Or.inr (Or.inl
                ⟨htipo, h2', h3.1, h3.2, h4, ?_⟩)))
              unfold futureValue at h4
              unfold clientTransactionFB
              rw [hp]
              dsimp only
              rw [if_pos hc, hf]
              dsimp only
              rw [if_neg h1, if_neg h2, if_neg (not_not_intro h3), if_pos h4]
            · refine Or.inr (Or.inr (Or.inr (Or.inr
                ⟨htipo, h2', h3.1, h3.2, not_lt.mp h4, ?_⟩)))
              unfold futureValue at h4
              unfold clientTransactionFB
              rw [hp]
              dsimp only
              rw [if_pos hc, hf]
              dsimp only
              rw [if_neg h1, if_neg h2, if_neg (not_not_intro h3), if_neg h4]
              dsimp only [futureValue, applySuccess]
          · refine Or.inr (Or.inr (Or.inl ⟨htipo, h2', h3, ?_⟩))
            unfold clientTransactionFB
            rw [hp]
            dsimp only
            rw [if_pos hc, hf]
            dsimp only
            rw [if_neg h1, if_neg h2, if_pos h3]

theorem clientTransaction_eq_FB (st : ApiState) (cid : String)
    (p : TransactionRequest) (now : Nat) :
    clientTransaction st cid p now =
      clientTransactionFB (fun current_balance _ => current_balance) st cid p now := rfl

/-- Exhaustive case analysis of `clientBalance`: panic on unparseable id,
not-found, or the read-only statement. -/
theorem clientBalance_spec (st : ApiState) (cid : String) (now : Nat) :
    (parseI64 cid = none ∧ clientBalance st cid now = none) ∨
    ∃ tid, parseI64 cid = some tid ∧
      (((st.client_list.map Client.id).contains tid = false ∧
          clientBalance st cid now = some (.NOT_FOUND, .err ⟨msgIdInvalido⟩, st)) ∨
       ((st.client_list.map Client.id).contains tid = true ∧
        ∃ c₀, st.client_list.find? (fun c => c.id == tid) = some c₀ ∧
          clientBalance st cid now =
            some (.OK,
              .ok ⟨⟨c₀.saldo, now, c₀.limite⟩, c₀.transacoes.reverse.take 10⟩,
              st))) := by
  cases hp : parseI64 cid with
  | none =>
    left
    exact ⟨rfl, by unfold clientBalance; rw [hp]⟩
  | some tid =>
    right
    refine ⟨tid, rfl, ?_⟩
    cases hc : (st.client_list.map Client.id).contains tid with
    | false =>
      left
      refine ⟨rfl, ?_⟩
      have hc' : ¬((st.client_list.map Client.id).contains tid = true) := by
        rw [hc]; exact Bool.false_ne_true
      unfold clientBalance
      rw [hp]
      dsimp only
      rw [if_neg hc']
    | true =>
      right
      obtain ⟨c₀, hf⟩ := find?_mem_of_contains _ _ hc
      refine ⟨rfl, c₀, hf, ?_⟩
      unfold clientBalance
      rw [hp]
      dsimp only
      rw [if_pos hc, hf]

/-- Any completed `clientTransaction` call either leaves the state
untouched, or is the success case: kind validated, limit respected,
`OK` response built from the found client, state updated by
`applySuccess`. -/
theorem clientTransaction_state (st : ApiState) (cid : String)
    (p : TransactionRequest) (now : Nat) (code : StatusCode)
    (resp : TxResponse) (st' : ApiState)
    (h : clientTransaction st cid p now = some (code, resp, st')) :
    (st' = st ∧ ∃ e, resp = TxResponse.err e) ∨
    ∃ tid c₀, parseI64 cid = some tid ∧
      st.client_list.find? (fun c => c.id == tid) = some c₀ ∧
      (p.tipo = "c" ∨ p.tipo = "d") ∧ 0 < p.valor ∧
      0 < p.descricao.length ∧ p.descricao.length ≤ 10 ∧
      0 - c₀.limite ≤ futureValue (fun cur _ => cur) p.tipo c₀.saldo p.valor ∧
      code = .OK ∧
      resp = .ok ⟨c₀.limite, futureValue (fun cur _ => cur) p.tipo c₀.saldo p.valor⟩ ∧
      st' = applySuccess st tid p now
        (futureValue (fun cur _ => cur) p.tipo c₀.saldo p.valor) := by
  rw [clientTransaction_eq_FB] at h
  rcases clientTransactionFB_spec (fun current_balance _ => current_balance) st cid p now with
    ⟨_, heq⟩ | ⟨tid, hp, ⟨_, heq⟩ | ⟨hc, c₀, hf, hcases⟩⟩
  · rw [heq] at h; exact absurd h (by simp)
  · rw [heq] at h
    simp only [Option.some.injEq, Prod.mk.injEq] at h
    exact Or.inl ⟨h.2.2.symm, _, h.2.1.symm⟩
  · rcases hcases with ⟨_, _, heq⟩ | ⟨_, _, heq⟩ | ⟨_, _, _, heq⟩ |
      ⟨_, _, _, _, _, heq⟩ | ⟨htipo, hval, hd1, hd2, hge, heq⟩
    · rw [heq] at h; simp only [Option.some.injEq, Prod.mk.injEq] at h
      exact Or.inl ⟨h.2.2.symm, _, h.2.1.symm⟩
    · rw [heq] at h; simp only [Option.some.injEq, Prod.mk.injEq] at h
      exact Or.inl ⟨h.2.2.symm, _, h.2.1.symm⟩
    · rw [heq] at h; simp only [Option.some.injEq, Prod.mk.injEq] at h
      exact Or.inl ⟨h.2.2.symm, _, h.2.1.symm⟩
    · rw [heq] at h; simp only [Option.some.injEq, Prod.mk.injEq] at h
      exact Or.inl ⟨h.2.2.symm, _, h.2.1.symm⟩
    · rw [heq] at h
      simp only [Option.some.injEq, Prod.mk.injEq] at h
      exact Or.inr ⟨tid, c₀, hp, hf, htipo, hval, hd1, hd2, hge,
        h.1.symm, h.2.1.symm, h.2.2.symm⟩

/-- C1: For every account and after every operation — at initialization,
after every `clientTransaction` call and after every `clientBalance`
call — the account's balance is at least the negation of its credit
limit; in particular a request whose candidate balance would fall below
`-creditLimit` is rejected with the limit error and the state is
returned unchanged. -/
theorem C1_credit_limit_invariant :
    ApiState.new.invariantB = true ∧
    (∀ st cid p now code resp st', st.invariantB = true →
      clientTransaction st cid p now = some (code, resp, st') →
      st'.invariantB = true) ∧
    (∀ st cid now code resp st', st.invariantB = true →
      clientBalance st cid now = some (code, resp, st') →
      st'.invariantB = true) ∧
    (∀ st cid p now tid c₀, parseI64 cid = some tid →
      (st.client_list.map Client.id).contains tid = true →
      st.client_list.find? (fun c => c.id == tid) = some c₀ →
      (p.tipo = "c" ∨ p.tipo = "d") → 0 < p.valor →
      0 < p.descricao.length → p.descricao.length ≤ 10 →
      futureValue (fun cur _ => cur) p.tipo c₀.saldo p.valor < -c₀.limite →
      clientTransaction st cid p now =
        some (.UNPROCESSABLE_ENTITY, .err ⟨msgLimite⟩, st)) := by
  refine ⟨by decide, ?_, ?_, ?_⟩
  · intro st cid p now code resp st' hinv h
    rcases clientTransaction_state st cid p now code resp st' h with
      ⟨heq, _⟩ | ⟨tid, c₀, _, hf, _, _, _, _, hge, _, _, heq⟩
    · rw [heq]; exact hinv
    · rw [heq]
      unfold ApiState.invariantB at hinv ⊢
      unfold applySuccess
      dsimp only
      refine updateFirst_all _ _ _ _ c₀ hinv hf ?_
      unfold Client.invariantB
      dsimp only
      exact decide_eq_true (by rw [zero_sub] at hge; exact hge)
  · intro st cid now code resp st' hinv h
    rcases clientBalance_spec st cid now with
      ⟨_, heq⟩ | ⟨tid, hp, ⟨_, heq⟩ | ⟨_, c₀, hf, heq⟩⟩
    · rw [heq] at h; exact absurd h (by simp)
    · rw [heq] at h; simp only [Option.some.injEq, Prod.mk.injEq] at h
      rw [← h.2.2]; exact hinv
    · rw [heq] at h; simp only [Option.some.injEq, Prod.mk.injEq] at h
      rw [← h.2.2]; exact hinv
  · intro st cid p now tid c₀ hp hc hf htipo hval hd1 hd2 hlt
    rw [clientTransaction_eq_FB]
    rcases clientTransactionFB_spec (fun current_balance _ => current_balance)
        st cid p now with
      ⟨hpn, _⟩ | ⟨tid', hp', hrest⟩
    · rw [hp] at hpn; exact absurd hpn (by simp)
    · rw [hp] at hp'
      injection hp' with htid
      subst htid
      rcases hrest with ⟨hcf, _⟩ | ⟨_, c₀', hf', hcases⟩
      · rw [hc] at hcf; exact absurd hcf (by simp)
      · rw [hf] at hf'
        injection hf' with hc₀
        subst hc₀
        rcases hcases with ⟨ht1, ht2, _⟩ | ⟨_, hv, _⟩ | ⟨_, _, hd, _⟩ |
          ⟨_, _, _, _, _, heq⟩ | ⟨_, _, _, _, hge, _⟩
        · rcases htipo with h | h
          · exact absurd h ht1
          · exact absurd h ht2
        · exact absurd hv (not_le.mpr hval)
        · exact absurd ⟨hd1, hd2⟩ hd
        · exact heq
        · rw [zero_sub] at hge
          exact absurd hlt (not_lt.mpr hge)

/-- Witness for C1 at concrete inputs: the initial state satisfies the
invariant, and so does the state after a successful credit of 1000 on
account 1. -/
theorem C1_credit_limit_invariant_witness :
    ApiState.new.invariantB = true ∧
    ApiState.invariantB ⟨[⟨1, 100000, 1000, [⟨1000, "c", "dep", 0⟩]⟩,
      Client.new 2 80000 0, Client.new 3 1000000 0, Client.new 4 10000000 0,
      Client.new 5 500000 0]⟩ = true :=
  ⟨C1_credit_limit_invariant.1,
   C1_credit_limit_invariant.2.1 ApiState.new "1" ⟨1000, "c", "dep"⟩ 0
     .OK (.ok ⟨100000, 1000⟩)
     ⟨[⟨1, 100000, 1000, [⟨1000, "c", "dep", 0⟩]⟩,
       Client.new 2 80000 0, Client.new 3 1000000 0, Client.new 4 10000000 0,
       Client.new 5 500000 0]⟩
     (by decide) (by decide)⟩

/-- C2: every rejected `clientTransaction` call — validation, limit or
not-found, i.e. every call returning an error payload — hands back the
input state unchanged: balances and histories are untouched and no
partially updated state is ever produced. -/
theorem C2_rejection_noop :
    ∀ st cid p now code e st',
      clientTransaction st cid p now = some (code, TxResponse.err e, st') →
      st' = st := by
  intro st cid p now code e st' h
  rcases clientTransaction_state st cid p now code (.err e) st' h with
    ⟨heq, _⟩ | ⟨_, _, _, _, _, _, _, _, _, _, hresp, _⟩
  · exact heq
  · exact absurd hresp (by simp)

/-- Witness for C2: the invalid-kind request "x" on account 1 is
rejected and the state it returns is the input state. -/
theorem C2_rejection_noop_witness :
    clientTransaction ApiState.new "1" ⟨100, "x", "dep"⟩ 0 =
      some (.UNPROCESSABLE_ENTITY, .err ⟨msgInvalidTipo⟩, ApiState.new) ∧
    ApiState.new = ApiState.new :=
  ⟨by decide,
   C2_rejection_noop ApiState.new "1" ⟨100, "x", "dep"⟩ 0
     .UNPROCESSABLE_ENTITY ⟨msgInvalidTipo⟩ ApiState.new (by decide)⟩

/-- C7: for an account id that parses but is outside the registry, both
handlers immediately return the NOT_FOUND outcome with the untouched
state — for every payload, valid or not, so no validation reason is ever
produced first — and that outcome is distinct from the validation and
limit rejections (different status code and different messages). -/
theorem C7_not_found (st : ApiState) (cid : String) (p : TransactionRequest)
    (now now' : Nat) (tid : Int) (hp : parseI64 cid = some tid)
    (hc : (st.client_list.map Client.id).contains tid = false) :
    clientTransaction st cid p now =
      some (.NOT_FOUND, .err ⟨msgIdInvalido⟩, st) ∧
    clientBalance st cid now' =
      some (.NOT_FOUND, .err ⟨msgIdInvalido⟩, st) ∧
    (StatusCode.NOT_FOUND ≠ StatusCode.UNPROCESSABLE_ENTITY ∧
     msgIdInvalido ≠ msgLimite ∧ msgIdInvalido ≠ msgInvalidTipo ∧
     msgIdInvalido ≠ msgInvalidValor ∧ msgIdInvalido ≠ msgInvalidDescricao) := by
  refine ⟨?_, ?_, by decide⟩
  · rw [clientTransaction_eq_FB]
    rcases clientTransactionFB_spec (fun current_balance _ => current_balance)
        st cid p now with
      ⟨hpn, _⟩ | ⟨tid', hp', ⟨_, heq⟩ | ⟨hct, _⟩⟩
    · rw [hp] at hpn; exact absurd hpn (by simp)
    · exact heq
    · rw [hp] at hp'
      injection hp' with htid
      subst htid
      rw [hc] at hct
      exact absurd hct (by simp)
  · rcases clientBalance_spec st cid now' with
      ⟨hpn, _⟩ | ⟨tid', hp', ⟨_, heq⟩ | ⟨hct, _⟩⟩
    · rw [hp] at hpn; exact absurd hpn (by simp)
    · exact heq
    · rw [hp] at hp'
      injection hp' with htid
      subst htid
      rw [hc] at hct
      exact absurd hct (by simp)

/-- Witness for C7 at the spec's concrete unknown id 999. -/
theorem C7_not_found_witness :
    clientTransaction ApiState.new "999" ⟨100, "c", "dep"⟩ 0 =
      some (.NOT_FOUND, .err ⟨msgIdInvalido⟩, ApiState.new) ∧
    clientBalance ApiState.new "999" 0 =
      some (.NOT_FOUND, .err ⟨msgIdInvalido⟩, ApiState.new) ∧
    (StatusCode.NOT_FOUND ≠ StatusCode.UNPROCESSABLE_ENTITY ∧
     msgIdInvalido ≠ msgLimite ∧ msgIdInvalido ≠ msgInvalidTipo ∧
     msgIdInvalido ≠ msgInvalidValor ∧ msgIdInvalido ≠ msgInvalidDescricao) :=
  C7_not_found ApiState.new "999" ⟨100, "c", "dep"⟩ 0 0 999
    (by decide) (by decide)

/-- C8: at initialization the registry holds exactly accounts 1–5 with
credit limits 100000, 80000, 1000000, 10000000 and 500000, balance 0 and
empty history; afterwards neither handler ever adds or removes an
account (the id list is preserved by every call). -/
theorem C8_initial_registry :
    ApiState.new.client_list = [
      { id := 1, limite := 100000, saldo := 0, transacoes := [] },
      { id := 2, limite := 80000, saldo := 0, transacoes := [] },
      { id := 3, limite := 1000000, saldo := 0, transacoes := [] },
      { id := 4, limite := 10000000, saldo := 0, transacoes := [] },
      { id := 5, limite := 500000, saldo := 0, transacoes := [] }] ∧
    (∀ st cid p now code resp st',
      clientTransaction st cid p now = some (code, resp, st') →
      st'.client_list.map Client.id = st.client_list.map Client.id) ∧
    (∀ st cid now code resp st',
      clientBalance st cid now = some (code, resp, st') →
      st' = st) := by
  refine ⟨by decide, ?_, ?_⟩
  · intro st cid p now code resp st' h
    rcases clientTransaction_state st cid p now code resp st' h with
      ⟨heq, _⟩ | ⟨tid, c₀, _, _, _, _, _, _, _, _, _, heq⟩
    · rw [heq]
    · rw [heq]
      unfold applySuccess
      dsimp only
      apply map_id_updateFirst
      intro c
      rfl
  · intro st cid now code resp st' h
    rcases clientBalance_spec st cid now with
      ⟨_, heq⟩ | ⟨tid, hp, ⟨_, heq⟩ | ⟨_, c₀, hf, heq⟩⟩
    · rw [heq] at h; exact absurd h (by simp)
    · rw [heq] at h; simp only [Option.some.injEq, Prod.mk.injEq] at h
      exact h.2.2.symm
    · rw [heq] at h; simp only [Option.some.injEq, Prod.mk.injEq] at h
      exact h.2.2.symm

/-- Witness for C8: the id list is preserved across a successful credit
on account 1 and across a statement read. -/
theorem C8_initial_registry_witness :
    ApiState.invariantB ApiState.new = true ∧
    (ApiState.client_list ⟨[⟨1, 100000, 1000, [⟨1000, "c", "dep", 0⟩]⟩,
       Client.new 2 80000 0, Client.new 3 1000000 0, Client.new 4 10000000 0,
       Client.new 5 500000 0]⟩).map Client.id =
      ApiState.new.client_list.map Client.id :=
  ⟨by decide,
   C8_initial_registry.2.1 ApiState.new "1" ⟨1000, "c", "dep"⟩ 0
     .OK (.ok ⟨100000, 1000⟩)
     ⟨[⟨1, 100000, 1000, [⟨1000, "c", "dep", 0⟩]⟩,
       Client.new 2 80000 0, Client.new 3 1000000 0, Client.new 4 10000000 0,
       Client.new 5 500000 0]⟩ (by decide)⟩

/-- C3: on an existing account, a request passes validation iff its kind
is "c" or "d", its amount is positive, and its description has 1–10
characters (code points): each violated rule yields its own reason (the
first of kind, amount, description in that order), a fully valid request
is never rejected by validation (it reaches the limit check or
succeeds), and the three reasons are pairwise distinct. -/
theorem C3_validation (st : ApiState) (cid : String) (p : TransactionRequest)
    (now : Nat) (tid : Int) (hp : parseI64 cid = some tid)
    (hc : (st.client_list.map Client.id).contains tid = true) :
    (¬(p.tipo = "c" ∨ p.tipo = "d") →
      clientTransaction st cid p now =
        some (.UNPROCESSABLE_ENTITY, .err ⟨msgInvalidTipo⟩, st)) ∧
    ((p.tipo = "c" ∨ p.tipo = "d") → p.valor ≤ 0 →
      clientTransaction st cid p now =
        some (.UNPROCESSABLE_ENTITY, .err ⟨msgInvalidValor⟩, st)) ∧
    ((p.tipo = "c" ∨ p.tipo = "d") → 0 < p.valor →
      ¬(1 ≤ p.descricao.length ∧ p.descricao.length ≤ 10) →
      clientTransaction st cid p now =
        some (.UNPROCESSABLE_ENTITY, .err ⟨msgInvalidDescricao⟩, st)) ∧
    (specValidRequest p →
      (clientTransaction st cid p now =
        some (.UNPROCESSABLE_ENTITY, .err ⟨msgLimite⟩, st) ∨
      ∃ resp st', clientTransaction st cid p now =
        some (.OK, TxResponse.ok resp, st'))) ∧
    (msgInvalidTipo ≠ msgInvalidValor ∧ msgInvalidTipo ≠ msgInvalidDescricao ∧
     msgInvalidValor ≠ msgInvalidDescricao) := by
  rcases clientTransactionFB_spec (fun current_balance _ => current_balance)
      st cid p now with
    ⟨hpn, _⟩ | ⟨tid', hp', hrest⟩
  · rw [hp] at hpn; exact absurd hpn (by simp)
  rw [hp] at hp'
  injection hp' with htid
  subst htid
  rcases hrest with ⟨hcf, _⟩ | ⟨_, c₀, hf, hcases⟩
  · rw [hc] at hcf; exact absurd hcf (by simp)
  refine ⟨?_, ?_, ?_, ?_, by decide⟩
  · intro h1
    rcases hcases with ⟨_, _, heq⟩ | ⟨ht, _, _⟩ | ⟨ht, _, _, _⟩ |
      ⟨ht, _, _, _, _, _⟩ | ⟨ht, _, _, _, _, _⟩
    · rw [clientTransaction_eq_FB]; exact heq
    all_goals exact absurd ht h1
  · intro ht h2
    rcases hcases with ⟨hn1, hn2, _⟩ | ⟨_, _, heq⟩ | ⟨_, hv, _, _⟩ |
      ⟨_, hv, _, _, _, _⟩ | ⟨_, hv, _, _, _, _⟩
    · rcases ht with h | h
      · exact absurd h hn1
      · exact absurd h hn2
    · rw [clientTransaction_eq_FB]; exact heq
    all_goals exact absurd h2 (not_le.mpr hv)
  · intro ht hv h3
    rcases hcases with ⟨hn1, hn2, _⟩ | ⟨_, hle, _⟩ | ⟨_, _, _, heq⟩ |
      ⟨_, _, hd1, hd2, _, _⟩ | ⟨_, _, hd1, hd2, _, _⟩
    · rcases ht with h | h
      · exact absurd h hn1
      · exact absurd h hn2
    · exact absurd hle (not_le.mpr hv)
    · rw [clientTransaction_eq_FB]; exact heq
    all_goals exact absurd ⟨hd1, hd2⟩ h3
  · intro hvalid
    obtain ⟨ht, hv, hd1, hd2⟩ := hvalid
    rcases hcases with ⟨hn1, hn2, _⟩ | ⟨_, hle, _⟩ | ⟨_, _, hnd, _⟩ |
      ⟨_, _, _, _, _, heq⟩ | ⟨_, _, _, _, _, heq⟩
    · rcases ht with h | h
      · exact absurd h hn1
      · exact absurd h hn2
    · exact absurd hle (not_le.mpr hv)
    · exact absurd ⟨hd1, hd2⟩ hnd
    · exact Or.inl (by rw [clientTransaction_eq_FB]; exact heq)
    · exact Or.inr ⟨_, _, by rw [clientTransaction_eq_FB]; exact heq⟩

/-- Witness for C3: on account 1, the bad-kind request "x" draws the
kind reason, the valid multi-byte description "ação" (4 characters)
passes validation and succeeds. -/
theorem C3_validation_witness :
    clientTransaction ApiState.new "1" ⟨100, "x", "dep"⟩ 0 =
      some (.UNPROCESSABLE_ENTITY, .err ⟨msgInvalidTipo⟩, ApiState.new) ∧
    (clientTransaction ApiState.new "1" ⟨100, "c", "ação"⟩ 0 =
        some (.UNPROCESSABLE_ENTITY, .err ⟨msgLimite⟩, ApiState.new) ∨
      ∃ resp st', clientTransaction ApiState.new "1" ⟨100, "c", "ação"⟩ 0 =
        some (.OK, TxResponse.ok resp, st')) :=
  ⟨(C3_validation ApiState.new "1" ⟨100, "x", "dep"⟩ 0 1
      (by decide) (by decide)).1 (by decide),
   (C3_validation ApiState.new "1" ⟨100, "c", "ação"⟩ 0 1
      (by decide) (by decide)).2.2.2.1 (by decide)⟩

/-- C9: the fallback arm of the kind match (`_ => current_balance`) is
unreachable — replacing it by any function of the current balance and
amount leaves every result of every call unchanged, because requests
whose kind is neither "c" nor "d" are rejected during validation before
the balance computation; so no request is ever silently defaulted to a
no-op. -/
theorem C9_fallback_unreachable :
    (∀ fb st cid p now,
      clientTransactionFB fb st cid p now = clientTransaction st cid p now) ∧
    (∀ st cid p now tid, parseI64 cid = some tid →
      (st.client_list.map Client.id).contains tid = true →
      ¬p.tipo = "c" → ¬p.tipo = "d" →
      clientTransaction st cid p now =
        some (.UNPROCESSABLE_ENTITY, .err ⟨msgInvalidTipo⟩, st)) := by
  constructor
  case right =>
    intro st cid p now tid hp hc h1 h2
    rcases clientTransactionFB_spec (fun current_balance _ => current_balance)
        st cid p now with ⟨hpn, _⟩ | ⟨tid', hp', hrest⟩
    · rw [hp] at hpn; exact absurd hpn (by simp)
    rw [hp] at hp'
    injection hp' with htid
    subst htid
    rcases hrest with ⟨hcf, _⟩ | ⟨_, c₀, hf, hcases⟩
    · rw [hc] at hcf; exact absurd hcf (by simp)
    rcases hcases with ⟨_, _, heq⟩ | ⟨ht, _, _⟩ | ⟨ht, _⟩ | ⟨ht, _⟩ | ⟨ht, _⟩
    · rw [clientTransaction_eq_FB]; exact heq
    all_goals cases ht with
      | inl h => exact absurd h h1
      | inr h => exact absurd h h2
  case left =>
    intro fb st cid p now
    rw [clientTransaction_eq_FB]
    unfold clientTransactionFB
    cases hp : parseI64 cid with
    | none => rfl
    | some tid =>
      dsimp only
      by_cases hc : (st.client_list.map Client.id).contains tid = true
      · rw [if_pos hc, if_pos hc]
        cases hf : st.client_list.find? (fun c => c.id == tid) with
        | none => rfl
        | some c₀ =>
          dsimp only
          by_cases h1 : ¬p.tipo = "c" ∧ ¬p.tipo = "d"
          · rw [if_pos h1, if_pos h1]
          · rw [if_neg h1, if_neg h1]
            by_cases h2 : p.valor ≤ 0
            · rw [if_pos h2, if_pos h2]
            · rw [if_neg h2, if_neg h2]
              by_cases h3 : ¬(p.descricao.length > 0 ∧ p.descricao.length ≤ 10)
              · rw [if_pos h3, if_pos h3]
              · rw [if_neg h3, if_neg h3]
                have htipo : p.tipo = "c" ∨ p.tipo = "d" := by
                  rcases not_and_or.mp h1 with h | h
                  · exact Or.inl (not_not.mp h)
                  · exact Or.inr (not_not.mp h)
                rcases htipo with h | h <;> rw [h] <;> rfl
      · rw [if_neg hc, if_neg hc]

/-- C4: every successful `clientTransaction` call addresses an existing
account and returns status OK, the account's unchanged credit limit and
the new balance: old balance plus the amount for a credit, old balance
minus the amount for a debit; the updated account carries exactly that
balance and limit. -/
theorem C4_success_response (st : ApiState) (cid : String)
    (p : TransactionRequest) (now : Nat) (code : StatusCode)
    (resp : TransactionOkResp) (st' : ApiState)
    (h : clientTransaction st cid p now = some (code, TxResponse.ok resp, st')) :
    ∃ tid c₀, parseI64 cid = some tid ∧
      st.client_list.find? (fun c => c.id == tid) = some c₀ ∧
      code = StatusCode.OK ∧
      resp.limite = c₀.limite ∧
      (p.tipo = "c" → resp.saldo = c₀.saldo + p.valor) ∧
      (p.tipo = "d" → resp.saldo = c₀.saldo - p.valor) ∧
      (p.tipo = "c" ∨ p.tipo = "d") ∧
      st'.client_list.find? (fun c => c.id == tid) =
        some { c₀ with
          transacoes := c₀.transacoes ++
            [{ valor := p.valor, tipo := p.tipo, descricao := p.descricao,
               realizada_em := now }],
          saldo := resp.saldo } := by
  rcases clientTransaction_state st cid p now code (.ok resp) st' h with
    ⟨_, e, hresp⟩ | ⟨tid, c₀, hp, hf, htipo, _, _, _, _, hcode, hresp, hst⟩
  · exact absurd hresp (by simp)
  · injection hresp with hresp
    refine ⟨tid, c₀, hp, hf, hcode, ?_, ?_, ?_, htipo, ?_⟩
    · rw [hresp]
    · intro hcc
      rw [hresp]
      simp [futureValue, hcc]
    · intro hdd
      rcases htipo with hcc | _
      · rw [hresp]
        simp [futureValue, hcc]
        rw [hcc] at hdd
        exact absurd hdd (by decide)
      · rw [hresp]
        simp [futureValue, hdd]
    · rw [hst]
      unfold applySuccess
      dsimp only
      rw [hresp]
      exact find?_updateFirst _ _ _ c₀ hf (by
        have := List.find?_some hf
        simpa using this)

/-- Witness for C4 at the spec's concrete scenario 1: credit 1000 with
description "dep" on account 1 yields OK, limit 100000, balance 1000. -/
theorem C4_success_response_witness :
    ∃ tid c₀, parseI64 "1" = some tid ∧
      ApiState.new.client_list.find? (fun c => c.id == tid) = some c₀ ∧
      StatusCode.OK = StatusCode.OK ∧
      (TransactionOkResp.mk 100000 1000).limite = c₀.limite ∧
      ((TransactionRequest.mk 1000 "c" "dep").tipo = "c" →
        (TransactionOkResp.mk 100000 1000).saldo =
          c₀.saldo + (TransactionRequest.mk 1000 "c" "dep").valor) ∧
      ((TransactionRequest.mk 1000 "c" "dep").tipo = "d" →
        (TransactionOkResp.mk 100000 1000).saldo =
          c₀.saldo - (TransactionRequest.mk 1000 "c" "dep").valor) ∧
      ((TransactionRequest.mk 1000 "c" "dep").tipo = "c" ∨
        (TransactionRequest.mk 1000 "c" "dep").tipo = "d") ∧
      (ApiState.client_list
          ⟨[⟨1, 100000, 1000, [⟨1000, "c", "dep", 0⟩]⟩,
            Client.new 2 80000 0, Client.new 3 1000000 0,
            Client.new 4 10000000 0, Client.new 5 500000 0]⟩).find?
          (fun c => c.id == tid) =
        some { c₀ with
          transacoes := c₀.transacoes ++
            [{ valor := (TransactionRequest.mk 1000 "c" "dep").valor,
               tipo := (TransactionRequest.mk 1000 "c" "dep").tipo,
               descricao := (TransactionRequest.mk 1000 "c" "dep").descricao,
               realizada_em := 0 }],
          saldo := (TransactionOkResp.mk 100000 1000).saldo } :=
  C4_success_response ApiState.new "1" ⟨1000, "c", "dep"⟩ 0
    .OK ⟨100000, 1000⟩
    ⟨[⟨1, 100000, 1000, [⟨1000, "c", "dep", 0⟩]⟩,
      Client.new 2 80000 0, Client.new 3 1000000 0,
      Client.new 4 10000000 0, Client.new 5 500000 0]⟩ (by decide)

theorem contains_of_find? (l : List Client) (tid : Int) (c₀ : Client)
    (h : l.find? (fun c => c.id == tid) = some c₀) :
    (l.map Client.id).contains tid = true := by
  have hmem : c₀ ∈ l := List.mem_of_find?_eq_some h
  have hid : c₀.id = tid := by simpa using List.find?_some h
  have : tid ∈ l.map Client.id := List.mem_map.mpr ⟨c₀, hmem, hid⟩
  simpa using this

theorem last10_head (l : List Transaction) (tx : Transaction) :
    ((l ++ [tx]).reverse.take 10).head? = some tx := by
  rw [List.reverse_append, List.reverse_singleton, List.singleton_append,
    show (10 : Nat) = 9 + 1 from rfl, List.take_succ_cons, List.head?_cons]

/-- C6: every completed `clientBalance` call returns the state unchanged
(no mutation), and on success the returned list is the last up-to-10
entries of the account's append-ordered history in reverse (most recent
first), hence has at most 10 entries and never more than were applied;
the snapshot carries the account's balance, its limit and the read
timestamp. -/
theorem C6_statement (st : ApiState) (cid : String) (now : Nat)
    (code : StatusCode) (r : BalResponse) (st' : ApiState)
    (h : clientBalance st cid now = some (code, r, st')) :
    st' = st ∧
    ∀ b, r = BalResponse.ok b →
      ∃ tid c₀, parseI64 cid = some tid ∧
        st.client_list.find? (fun c => c.id == tid) = some c₀ ∧
        b.ultimas_transacoes = c₀.transacoes.reverse.take 10 ∧
        b.ultimas_transacoes =
          (c₀.transacoes.drop (c₀.transacoes.length - 10)).reverse ∧
        b.ultimas_transacoes.length ≤ 10 ∧
        b.ultimas_transacoes.length ≤ c₀.transacoes.length ∧
        b.saldo.total = c₀.saldo ∧ b.saldo.limite = c₀.limite ∧
        b.saldo.data_extrato = now := by
  rcases clientBalance_spec st cid now with
    ⟨_, heq⟩ | ⟨tid, hp, ⟨_, heq⟩ | ⟨_, c₀, hf, heq⟩⟩
  · rw [heq] at h; exact absurd h (by simp)
  · rw [heq] at h
    simp only [Option.some.injEq, Prod.mk.injEq] at h
    refine ⟨h.2.2.symm, ?_⟩
    intro b hb
    rw [← h.2.1] at hb
    exact absurd hb (by simp)
  · rw [heq] at h
    simp only [Option.some.injEq, Prod.mk.injEq] at h
    refine ⟨h.2.2.symm, ?_⟩
    intro b hb
    rw [← h.2.1] at hb
    injection hb with hb
    subst hb
    refine ⟨tid, c₀, hp, hf, rfl, ?_, ?_, ?_, rfl, rfl, rfl⟩
    · dsimp only
      rw [List.take_reverse]
    · dsimp only
      rw [List.length_take]
      exact min_le_left _ _
    · dsimp only
      rw [List.length_take]
      simp

/-- Witness for C6: reading account 1 after one applied credit leaves
the state unchanged. -/
theorem C6_statement_witness :
    (⟨[⟨1, 100000, 1000, [⟨1000, "c", "dep", 0⟩]⟩, Client.new 2 80000 0,
       Client.new 3 1000000 0, Client.new 4 10000000 0,
       Client.new 5 500000 0]⟩ : ApiState) =
    ⟨[⟨1, 100000, 1000, [⟨1000, "c", "dep", 0⟩]⟩, Client.new 2 80000 0,
      Client.new 3 1000000 0, Client.new 4 10000000 0,
      Client.new 5 500000 0]⟩ :=
  (C6_statement _ "1" 5 .OK
    (.ok ⟨⟨1000, 5, 100000⟩, [⟨1000, "c", "dep", 0⟩]⟩) _ (by decide)).1

/-- C5: after every successful `clientTransaction`, a `clientBalance`
read of the same account on the resulting state succeeds, lists the new
transaction first in its last-10 list, and reports exactly the balance
the transaction call returned; both effects live in the single returned
state, so neither is ever visible without the other. -/
theorem C5_transaction_statement (st : ApiState) (cid : String)
    (p : TransactionRequest) (now now' : Nat) (code : StatusCode)
    (resp : TransactionOkResp) (st' : ApiState)
    (h : clientTransaction st cid p now = some (code, TxResponse.ok resp, st')) :
    ∃ b, clientBalance st' cid now' = some (.OK, BalResponse.ok b, st') ∧
      b.ultimas_transacoes.head? = some
        { valor := p.valor, tipo := p.tipo, descricao := p.descricao,
          realizada_em := now } ∧
      b.saldo.total = resp.saldo := by
  rcases clientTransaction_state st cid p now code (.ok resp) st' h with
    ⟨_, e, hresp⟩ | ⟨tid, c₀, hp, hf, _, _, _, _, _, _, hresp, hst⟩
  · exact absurd hresp (by simp)
  injection hresp with hresp
  have hfind' : st'.client_list.find? (fun c => c.id == tid) =
      some { c₀ with
        transacoes := c₀.transacoes ++
          [{ valor := p.valor, tipo := p.tipo, descricao := p.descricao,
             realizada_em := now }],
        saldo := futureValue (fun cur _ => cur) p.tipo c₀.saldo p.valor } := by
    rw [hst]
    unfold applySuccess
    dsimp only
    exact find?_updateFirst _ _ _ c₀ hf (by simpa using List.find?_some hf)
  have hcont' : (st'.client_list.map Client.id).contains tid = true :=
    contains_of_find? _ _ _ hfind'
  rcases clientBalance_spec st' cid now' with
    ⟨hpn, _⟩ | ⟨tid', hp', ⟨hcf, _⟩ | ⟨_, c₀', hf', heq⟩⟩
  · rw [hp] at hpn; exact absurd hpn (by simp)
  · rw [hp] at hp'
    injection hp' with htid
    subst htid
    rw [hcont'] at hcf
    exact absurd hcf (by simp)
  · rw [hp] at hp'
    injection hp' with htid
    subst htid
    rw [hfind'] at hf'
    injection hf' with hc₀'
    refine ⟨_, heq, ?_, ?_⟩
    · dsimp only
      rw [← hc₀']
      dsimp only
      exact last10_head _ _
    · dsimp only
      rw [← hc₀', hresp]

/-- Witness for C5: after the credit of 1000 on account 1, the
statement shows that transaction first and balance 1000. -/
theorem C5_transaction_statement_witness :
    ∃ b, clientBalance
        ⟨[⟨1, 100000, 1000, [⟨1000, "c", "dep", 7⟩]⟩, Client.new 2 80000 0,
          Client.new 3 1000000 0, Client.new 4 10000000 0,
          Client.new 5 500000 0]⟩ "1" 9 =
        some (.OK, BalResponse.ok b,
          ⟨[⟨1, 100000, 1000, [⟨1000, "c", "dep", 7⟩]⟩, Client.new 2 80000 0,
            Client.new 3 1000000 0, Client.new 4 10000000 0,
            Client.new 5 500000 0]⟩) ∧
      b.ultimas_transacoes.head? = some
        { valor := (1000 : Int), tipo := "c", descricao := "dep",
          realizada_em := 7 } ∧
      b.saldo.total = (TransactionOkResp.mk 100000 1000).saldo :=
  C5_transaction_statement ApiState.new "1" ⟨1000, "c", "dep"⟩ 7 9
    .OK ⟨100000, 1000⟩
    ⟨[⟨1, 100000, 1000, [⟨1000, "c", "dep", 7⟩]⟩, Client.new 2 80000 0,
      Client.new 3 1000000 0, Client.new 4 10000000 0,
      Client.new 5 500000 0]⟩ (by decide)

/-- C10: both handlers are total exactly when the path id parses as a
signed 64-bit integer: an unparseable id (such as "abc") hits the
unguarded `parse().unwrap()` and the call panics (modelled `none`)
instead of producing NotFound, while for every parseable id both
handlers return a value and never panic. -/
theorem C10_totality :
    (∀ st cid p now, parseI64 cid = none →
      clientTransaction st cid p now = none) ∧
    (∀ st cid p now tid, parseI64 cid = some tid →
      ∃ r, clientTransaction st cid p now = some r) ∧
    (∀ st cid now, parseI64 cid = none → clientBalance st cid now = none) ∧
    (∀ st cid now tid, parseI64 cid = some tid →
      ∃ r, clientBalance st cid now = some r) ∧
    parseI64 "abc" = none := by
  refine ⟨?_, ?_, ?_, ?_, by decide⟩
  · intro st cid p now hpn
    rcases clientTransactionFB_spec (fun current_balance _ => current_balance)
        st cid p now with ⟨_, heq⟩ | ⟨tid, hp', _⟩
    · rw [clientTransaction_eq_FB]; exact heq
    · rw [hpn] at hp'; exact absurd hp' (by simp)
  · intro st cid p now tid hp
    rw [clientTransaction_eq_FB]
    rcases clientTransactionFB_spec (fun current_balance _ => current_balance)
        st cid p now with ⟨hpn, _⟩ | ⟨tid', _, hrest⟩
    · rw [hp] at hpn; exact absurd hpn (by simp)
    · rcases hrest with ⟨_, heq⟩ | ⟨_, c₀, _, hcases⟩
      · exact ⟨_, heq⟩
      · rcases hcases with ⟨_, _, heq⟩ | ⟨_, _, heq⟩ | ⟨_, _, _, heq⟩ |
          ⟨_, _, _, _, _, heq⟩ | ⟨_, _, _, _, _, heq⟩ <;> exact ⟨_, heq⟩
  · intro st cid now hpn
    rcases clientBalance_spec st cid now with ⟨_, heq⟩ | ⟨tid, hp', _⟩
    · exact heq
    · rw [hpn] at hp'; exact absurd hp' (by simp)
  · intro st cid now tid hp
    rcases clientBalance_spec st cid now with
      ⟨hpn, _⟩ | ⟨tid', _, ⟨_, heq⟩ | ⟨_, c₀, _, heq⟩⟩
    · rw [hp] at hpn; exact absurd hpn (by simp)
    · exact ⟨_, heq⟩
    · exact ⟨_, heq⟩

/-- Witness for C10: the unparseable id "abc" makes the transaction
handler panic (modelled `none`), while the parseable id "1" always
completes. -/
theorem C10_totality_witness :
    clientTransaction ApiState.new "abc" ⟨1, "c", "x"⟩ 0 = none ∧
    ∃ r, clientBalance ApiState.new "1" 0 = some r :=
  ⟨C10_totality.1 ApiState.new "abc" ⟨1, "c", "x"⟩ 0 (by decide),
   C10_totality.2.2.2.1 ApiState.new "1" 0 1 (by decide)⟩

/-- Witness for C9: with an arbitrary altered fallback the handler
still produces the very same result, and the unrecognized kind "x" on
account 1 is rejected during validation. -/
theorem C9_fallback_unreachable_witness :
    clientTransactionFB (fun _ _ => 12345) ApiState.new "1" ⟨5, "x", "abc"⟩ 0 =
      clientTransaction ApiState.new "1" ⟨5, "x", "abc"⟩ 0 ∧
    clientTransaction ApiState.new "1" ⟨5, "x", "abc"⟩ 0 =
      some (.UNPROCESSABLE_ENTITY, .err ⟨msgInvalidTipo⟩, ApiState.new) :=
  ⟨C9_fallback_unreachable.1 (fun _ _ => 12345) ApiState.new "1" ⟨5, "x", "abc"⟩ 0,
   C9_fallback_unreachable.2 ApiState.new "1" ⟨5, "x", "abc"⟩ 0 1
     (by decide) (by decide) (by decide) (by decide)⟩
